import Mathlib

/-!
Verification of the MCPContentSearch repository.

This file gives a shallow embedding, in Lean 4, of the parts of the program
that the specification's claims are about:

* the incremental synchronization engine
  (`src/indexing/manager.py`, `src/indexing/indexer.py`, `src/indexing/converter.py`),
* the indexing status state machine and its progress updates
  (`src/indexing/indexer.py`, `src/api/tools.py`),
* the dynamic search fallback orchestrator
  (`src/search/dynamic_search.py`, `src/search/service.py`),
* the crawler boundary behaviour
  (`src/fetching/notion.py`, `src/fetching/tistory.py`, `src/fetching/web_searcher.py`).

Modelling conventions:

* The MD5 digest primitive (`hashlib.md5(...).hexdigest()` in
  `src/core/utils.py`, `ContentHasher.hash_content`) is an external library
  call; it is modelled as an explicit function parameter `md5hex : String → String`.
  Every theorem that depends on hashing holds for an arbitrary such function;
  the program's actual digest is one instance.  All uses of the digest in the
  program compute it with the same function on the same `content` string,
  which is what the parameterisation captures.
* The Chroma document store is modelled as a list of written documents, in
  insertion order; `collection.get(include=["metadatas"])` returns their
  metadata in that order, and the dict comprehension in
  `IndexManager._load_existing` keeps, for each `doc_id`, the hash of the
  last record (later dict insertions overwrite earlier ones).
  `collection.delete(where={"doc_id": id})` removes every record whose
  `doc_id` equals `id`.
* Python floats are out of scope; the `progress` field is modelled as a
  rational number, and `round(x, 2)` as rounding to two decimal places.
  No theorem below depends on the tie-breaking behaviour of `round`.
-/

/-- Model of `core/models.py`: `DocumentModel` — immutable document value. -/
structure DocumentModel where
  id : String
  title : String
  content : String
  url : String
  platform : String
  date : String
deriving DecidableEq, Repr

/-- Model of `indexing/converter.py`: the LlamaIndex `Document` produced by
`DocumentConverter.to_llama_document` — text plus the metadata dict. -/
structure LlamaDoc where
  text : String
  title : String
  platform : String
  url : String
  date : String
  docId : String
  contentHash : String
deriving DecidableEq, Repr

/-- Model of `indexing/converter.py`: `DocumentConverter.to_llama_document`.
`content_hash = ContentHasher.hash_content(doc.content)` is stored in the
metadata alongside the other document fields. -/
def toLlama (md5hex : String → String) (d : DocumentModel) : LlamaDoc :=
  { text := d.content
    title := d.title
    platform := d.platform
    url := d.url
    date := d.date
    docId := d.id
    contentHash := md5hex d.content }

/-- Classification of one incoming document against the existing-index
snapshot (`indexing/manager.py`, `IndexManager.is_new` / `is_updated`). -/
inductive Classification where
  | newDoc
  | updatedDoc
  | unchanged
deriving DecidableEq, Repr

/-- Model of `indexing/manager.py`: `is_new` returns `doc.id not in self._existing_docs`;
`is_updated` returns, for a present id, whether the stored hash differs from
`ContentHasher.hash_content(doc.content)`; otherwise the document is skipped
(unchanged).  `snap` is the snapshot `self._existing_docs`. -/
def classifyDoc (md5hex : String → String) (snap : String → Option String)
    (d : DocumentModel) : Classification :=
  match snap d.id with
  | none => .newDoc
  | some h => if h ≠ md5hex d.content then .updatedDoc else .unchanged

/-- State threaded through `ContentIndexer._filter_documents`
(`indexing/indexer.py` lines 62–87): the mutable store (shrunk by
`manager.delete_document`), the accumulated `new_docs` write list, a log of
the ids passed to `collection.delete` (the eviction set), and the
`new_count` / `update_count` counters. -/
structure SyncState where
  store : List LlamaDoc
  toWrite : List LlamaDoc
  deleted : List String
  newCount : Nat
  updCount : Nat
deriving DecidableEq, Repr

/-- One iteration of the loop body of `_filter_documents`: classify `doc`,
and either append its conversion (new), delete its old version and append
its conversion (updated), or do nothing (unchanged). -/
def syncStep (md5hex : String → String) (snap : String → Option String)
    (st : SyncState) (d : DocumentModel) : SyncState :=
  match classifyDoc md5hex snap d with
  | .newDoc =>
      { st with
        newCount := st.newCount + 1
        toWrite := st.toWrite ++ [toLlama md5hex d] }
  | .updatedDoc =>
      { st with
        updCount := st.updCount + 1
        store := st.store.filter (fun r => r.docId != d.id)
        deleted := st.deleted ++ [d.id]
        toWrite := st.toWrite ++ [toLlama md5hex d] }
  | .unchanged => st

/-- The loop of `_filter_documents` over the incoming batch, with the
snapshot fixed for the whole pass (it is loaded once, in
`IndexManager.__init__`). -/
def filterGo (md5hex : String → String) (snap : String → Option String) :
    List DocumentModel → SyncState → SyncState
  | [], st => st
  | d :: ds, st => filterGo md5hex snap ds (syncStep md5hex snap st d)

/-- Model of `indexing/manager.py`, `IndexManager._load_existing`: the snapshot maps
each `doc_id` present in the store's metadata to the `content_hash` of its
last record (a Python dict comprehension keeps the last value per key). -/
def lastHash (store : List LlamaDoc) (docId : String) : Option String :=
  ((store.filter (fun r => r.docId == docId)).getLast?).map (fun r => r.contentHash)

/-- Model of `ContentIndexer._filter_documents` run on a store: build the snapshot
from the store (as `IndexManager(self.collection)` does) and process the
batch. -/
def filterDocuments (md5hex : String → String) (store : List LlamaDoc)
    (docs : List DocumentModel) : SyncState :=
  filterGo md5hex (lastHash store) docs ⟨store, [], [], 0, 0⟩

/-- A full indexing pass over the store: filter the batch, then write all
documents of the write set into the store (`_batch_index` appends them via
`from_documents` / `insert`). -/
def runPass (md5hex : String → String) (store : List LlamaDoc)
    (docs : List DocumentModel) : List LlamaDoc :=
  let st := filterDocuments md5hex store docs
  st.store ++ st.toWrite

/-- The write set produced by the pass, in batch order: the conversions of
all documents not classified unchanged. -/
def writes (md5hex : String → String) (snap : String → Option String) :
    List DocumentModel → List LlamaDoc
  | [] => []
  | d :: ds =>
      match classifyDoc md5hex snap d with
      | .unchanged => writes md5hex snap ds
      | _ => toLlama md5hex d :: writes md5hex snap ds

/-- The eviction set produced by the pass, in batch order: the ids of the
documents classified updated. -/
def evicted (md5hex : String → String) (snap : String → Option String) :
    List DocumentModel → List String
  | [] => []
  | d :: ds =>
      if classifyDoc md5hex snap d = .updatedDoc then d.id :: evicted md5hex snap ds
      else evicted md5hex snap ds

/-- Fixture documents for concrete instances of the synchronization
theorems. -/
def docNew : DocumentModel :=
  ⟨"notion_1", "New page", "fresh text", "https://n/1", "Notion", ""⟩

def docUpd : DocumentModel :=
  ⟨"tistory_2", "Old post", "revised text", "https://t/2", "Tistory", ""⟩

def docSame : DocumentModel :=
  ⟨"tistory_3", "Stable post", "same text", "https://t/3", "Tistory", ""⟩

/-- Snapshot fixture: knows `tistory_2` with a stale fingerprint and
`tistory_3` with the current fingerprint (for the identity digest). -/
def snapFix : String → Option String := fun s =>
  if s = "tistory_2" then some "stale" else
  if s = "tistory_3" then some "same text" else none

def emptySync : SyncState := ⟨[], [], [], 0, 0⟩

/-- Duplicate-id fixtures: two documents sharing an id with different
contents in the same batch. -/
def dupA : DocumentModel := ⟨"x", "t", "a", "u", "p", ""⟩

def dupB : DocumentModel := ⟨"x", "t", "b", "u", "p", ""⟩

/-- Model of `core/models.py`: `IndexState` enumeration. -/
inductive IndexState where
  | idle
  | running
  | done
  | error
deriving DecidableEq, Repr

/-- Model of `core/models.py`: `IndexStatusModel`.  `progress` is a Python float in
the source; it is modelled as a rational. -/
structure IndexStatusModel where
  state : IndexState
  message : String
  progress : ℚ
  total_docs : Nat
  processed_docs : Nat
deriving DecidableEq, Repr

/-- The process-start status: `IndexStatusModel()` with all defaults. -/
def freshStatus : IndexStatusModel := ⟨.idle, "", 0, 0, 0⟩

/-- Python rounding `round(x, 2)` from `_update_progress` (`indexing/indexer.py` line 125).
Python rounds the float to two decimal places; this model rounds the
rational to two decimal places.  No theorem below depends on tie-breaking,
so the divergence between float round-half-even and this floor-based
rounding is immaterial. -/
def round2 (q : ℚ) : ℚ := ((100 * q + 1 / 2).floor : ℚ) / 100

/-- Observable status mutations performed by `ContentIndexer.index_documents`
(`indexing/indexer.py`): the initial `_update_status(RUNNING, ...)`, each
`_update_progress(processed, total)` call, `_complete_indexing(message)`,
and the `except` handler's `_update_status(ERROR, message)`. -/
inductive Event where
  | start (total : Nat)
  | update (processed total : Nat)
  | done (msg : String)
  | error (msg : String)
deriving DecidableEq, Repr

/-- Effect of each mutation on the status object.  `start` sets only
`state`, `message` and `total_docs` (lines 31–35: `progress` and
`processed_docs` keep their previous values); `update` sets
`processed_docs` and `progress = round(processed/total, 2)` (lines
123–125); `done` sets `state`, `message` and `progress = 1.0` (lines
127–132); `error` sets only `state` and `message` (lines 56–59). -/
def applyEvent (st : IndexStatusModel) : Event → IndexStatusModel
  | .start n => { st with state := .running, message := "Starting indexing...", total_docs := n }
  | .update p t => { st with processed_docs := p, progress := round2 ((p : ℚ) / (t : ℚ)) }
  | .done msg => { st with state := .done, message := msg, progress := 1 }
  | .error msg => { st with state := .error, message := msg }

/-- The `_update_progress` calls issued by the loop of `_filter_documents`:
one per index `i ∈ [1..n]` with `i % interval == 0`, with processed `i` and
total `n` (lines 70–81; the call does not depend on the classification
branch taken). -/
def filterUpdates (n interval : Nat) : List Nat :=
  (List.range' 1 n).filter (fun i => i % interval == 0)

/-- Model of `range(0, total, batch_size)` from `_batch_index` (line 92). -/
def chunkStarts (total step : Nat) : List Nat :=
  (List.range ((total + step - 1) / step)).map (· * step)

/-- The `_update_progress` calls issued by `_batch_index`: processed
`min(total, i + batch_size)` against the *filtered* total (lines 89–107). -/
def batchUpdates (total step : Nat) : List Nat :=
  (chunkStarts total step).map (fun i => min total (i + step))

/-- The sequence of status mutations of one call to
`ContentIndexer.index_documents` (`indexing/indexer.py` lines 29–60),
faithful to its control flow:

* set `RUNNING` with `total_docs = len(documents)`;
* if the batch is empty, complete with `DONE`;
* otherwise run `_filter_documents` (emitting its progress updates);
* if the filtered list is empty, complete with `DONE`;
* otherwise run `_batch_index`; an unrecoverable store-write failure is
  injected through `writeFail` (the external `from_documents` / `insert`
  call raising at the first chunk), reaching the `except` handler which
  sets `ERROR`; without failure the batch updates are emitted and the pass
  completes with `DONE` and the count summary message. -/
def indexEvents (md5hex : String → String) (snap : String → Option String)
    (docs : List DocumentModel) (interval batchSize : Nat)
    (writeFail : Option String) : List Event :=
  Event.start docs.length ::
    (if docs.isEmpty then [Event.done "No documents to index"]
     else
       let st := filterGo md5hex snap docs ⟨[], [], [], 0, 0⟩
       let m := st.toWrite.length
       ((filterUpdates docs.length interval).map
          (fun i => Event.update i docs.length)) ++
         (if m = 0 then [Event.done "No new or updated documents"]
          else
            match writeFail with
            | some msg => [Event.error ("Error: " ++ msg)]
            | none =>
                ((batchUpdates m batchSize).map (fun p => Event.update p m)) ++
                  [Event.done ("Complete: " ++ toString st.newCount ++ " new, " ++
                    toString st.updCount ++ " updated")]))

/-- All intermediate statuses of a pass, starting from `init`. -/
def statuses (init : IndexStatusModel) (evs : List Event) : List IndexStatusModel :=
  List.scanl applyEvent init evs

/-- The final status of a pass. -/
def finalStatus (init : IndexStatusModel) (evs : List Event) : IndexStatusModel :=
  List.foldl applyEvent init evs

/-- Model of `api/tools.py` lines 161–173, `trigger_index_all_content`: if the
status state is `RUNNING` return the "already in progress" message without
creating a background task; otherwise create the background indexing task
and return the start acknowledgement.  The boolean records whether
`asyncio.create_task` was called. -/
def trigger_index_all_content (st : IndexStatusModel) : String × Bool :=
  if st.state = .running then
    ("이미 인덱싱이 진행 중입니다.", false)
  else
    ("인덱싱을 백그라운드에서 시작했습니다. 'get_index_status'로 상태 확인하세요.", true)

/-- The literal `"Total "` prefix of the count-extraction pattern
`r"Total (\d+) documents found"` (`search/dynamic_search.py` line 122). -/
def totalPat : List Char := "Total ".data

/-- The literal `" documents found"` suffix of the pattern. -/
def docsFoundPat : List Char := " documents found".data

/-- Strip a literal character-list pattern from the front of the input,
returning the remainder on success. -/
def stripPre? : List Char → List Char → Option (List Char)
  | [], l => some l
  | _ :: _, [] => none
  | p :: ps, c :: cs => if p = c then stripPre? ps cs else none

/-- The maximal (greedy) run of decimal digits at the front of the input,
with the remainder — the `\d+` part of the pattern.  Backtracking cannot
shorten the run, because the following literal starts with a space. -/
def spanDigits : List Char → List Char × List Char
  | [] => ([], [])
  | c :: cs =>
      if c.isDigit then
        let r := spanDigits cs
        (c :: r.1, r.2)
      else ([], c :: cs)

/-- Decimal value of a digit run — the value of `int(match.group(1))`. -/
def digitRunVal (ds : List Char) : Nat :=
  ds.foldl (fun a c => 10 * a + (c.toNat - 48)) 0

/-- Does the pattern `Total (\d+) documents found` match at the very start
of the input?  On success, the value of the digit group. -/
def matchTotalAt (l : List Char) : Option Nat :=
  match stripPre? totalPat l with
  | none => none
  | some r =>
      let s := spanDigits r
      if s.1 = [] then none
      else
        match stripPre? docsFoundPat s.2 with
        | none => none
        | some _ => some (digitRunVal s.1)

/-- Semantics of `re.search`: the leftmost position at which the pattern
matches, scanning from the front. -/
def findCount : List Char → Option Nat
  | [] => none
  | c :: cs =>
      match matchTotalAt (c :: cs) with
      | some n => some n
      | none => findCount cs

/-- Model of `DynamicSearchService._extract_count` (`search/dynamic_search.py`
lines 119–123): the first match's group as a number, or 0 when the
pattern does not occur. -/
def extractCount (l : List Char) : Nat := (findCount l).getD 0

/-- Decimal digit character. -/
def toDigitChar (d : Nat) : Char := Char.ofNat (48 + d)

/-- Decimal conversion with explicit recursion fuel (`fuel > n` always
suffices, since the quotient shrinks at every step); structural recursion
on the fuel keeps the definition computable by the kernel. -/
def natDigitsAux : Nat → Nat → List Char
  | 0, _ => []
  | fuel + 1, n =>
      if n < 10 then [toDigitChar n]
      else natDigitsAux fuel (n / 10) ++ [toDigitChar (n % 10)]

/-- Decimal representation of a natural number, most significant digit
first — the rendering Python's `str` / f-string interpolation produces for
a non-negative `len(...)`. -/
def natDigits (n : Nat) : List Char := natDigitsAux (n + 1) n

/-- Decimal rendering as a string. -/
def natStr (n : Nat) : String := ⟨natDigits n⟩

/-- A retrieved node as consumed by `SearchService._format_results`
(`search/service.py` lines 38–81): the metadata fields with their
`.get(..., default)` defaults already applied, the node text, and the
display rendering of the relevance score.  The score itself is a float
(out of scope); only its rendered `f"{score:.3f}"` text ever appears in
the output, so that text is carried as an opaque string. -/
structure Node where
  title : String
  platform : String
  url : String
  date : String
  scoreText : String
  text : String
deriving DecidableEq, Repr

/-- One deduplicated result row built by `_format_results`. -/
structure SearchEntry where
  title : String
  platform : String
  url : String
  date : String
  scoreText : String
  preview : String
deriving DecidableEq, Repr

/-- Model of `AppConfig.preview_length` default (`environments/config.py`). -/
def preview_length : Nat := 200

/-- The result dict appended by `_format_results`:
`text[:preview_length] + "..."`. -/
def mkEntry (n : Node) : SearchEntry :=
  ⟨n.title, n.platform, n.url, n.date, n.scoreText, n.text.take preview_length ++ "..."⟩

/-- The title-deduplication loop of `_format_results` (lines 43–63):
skip seen titles (first occurrence wins), append otherwise, and break
*after* appending once `len(results) >= limit`.  `c` is the current
`len(results)`. -/
def dedupGo (limit : Nat) : List Node → List String → Nat → List SearchEntry
  | [], _, _ => []
  | n :: ns, seen, c =>
      if n.title ∈ seen then dedupGo limit ns seen c
      else
        if limit ≤ c + 1 then [mkEntry n]
        else mkEntry n :: dedupGo limit ns (n.title :: seen) (c + 1)

/-- The deduplicated, truncated result list of `_format_results`. -/
def dedupResults (nodes : List Node) (limit : Nat) : List SearchEntry :=
  dedupGo limit nodes [] 0

/-- Python `"\n".join(...)` over the output line list. -/
def joinNl : List String → String
  | [] => ""
  | [s] => s
  | s :: ss => s ++ "\n" ++ joinNl ss

/-- The per-result output lines of `_format_results` (lines 72–79),
enumerated from 1. -/
def entryLines : Nat → List SearchEntry → List String
  | _, [] => []
  | i, e :: es =>
      ("## " ++ natStr i ++ ". [" ++ e.title ++ "](" ++ e.url ++ ")") ::
      ("**Platform**: " ++ e.platform ++ " | **Date**: " ++ e.date) ::
      ("**Relevance**: " ++ e.scoreText) ::
      ("**Preview**: " ++ e.preview) ::
      "" :: entryLines (i + 1) es

/-- Model of `SearchService._format_results` (`search/service.py` lines 38–81):
the "No results" string for an empty node list, otherwise the joined
header lines — including `Total {len(results)} documents found` — and
the per-result lines. -/
def formatResults (q : String) (nodes : List Node) (limit : Nat) : String :=
  if nodes.isEmpty then "No results found for '" ++ q ++ "'"
  else
    let results := dedupResults nodes limit
    joinNl (("# 🔍 Search results: '" ++ q ++ "'") :: "" ::
      ("Total " ++ natStr results.length ++ " documents found") :: "" ::
      entryLines 1 results)

/-- Model of `search/dynamic_search.py`: the `SearchResult` dataclass. -/
structure SearchResult where
  source : String
  results : String
  new_docs_count : Nat
deriving DecidableEq, Repr

/-- Outcome of `DynamicSearchService.search` plus two observability flags:
whether `self.web_searcher.search` was awaited, and whether
`asyncio.create_task(self._index_background(...))` was called. -/
structure DynOutcome where
  result : SearchResult
  webInvoked : Bool
  indexingScheduled : Bool
deriving DecidableEq, Repr

/-- Model of `DynamicSearchService._search_local` (lines 96–108): the formatted
local result text and the count parsed back out of it; any exception in
the local search degrades to `("", 0)` (`localFailed`). -/
def searchLocal (q : String) (nodes : List Node) (n : Nat) (localFailed : Bool) :
    String × Nat :=
  if localFailed then ("", 0)
  else
    let r := formatResults q nodes n
    (r, extractCount r.data)

/-- The per-document lines of `_format_web_results`, enumerated from 1. -/
def webEntryLines : Nat → List DocumentModel → List String
  | _, [] => []
  | i, d :: ds =>
      ("## " ++ natStr i ++ ". [" ++ d.title ++ "](" ++ d.url ++ ")") ::
      ("**Platform**: " ++ d.platform ++ " | **Date**: " ++ d.date) ::
      ("**Preview**: " ++ d.content.take 200 ++ "...") ::
      "" :: webEntryLines (i + 1) ds

/-- Model of `DynamicSearchService._format_web_results` (lines 125–146). -/
def formatWebResults (q : String) (docs : List DocumentModel) : String :=
  joinNl (("# 🌐 Real-time Web Search: '" ++ q ++ "'") :: "" ::
    ("⚡ **Live results** - Found " ++ natStr docs.length ++ " documents") ::
    "📝 *These results are being added to your database...*" :: "" :: "---" :: "" ::
    webEntryLines 1 docs)

/-- Model of `DynamicSearchService.search` (`search/dynamic_search.py` lines
44–94): local search first; if the parsed local count reaches
`min_threshold` return the local text with no web access; otherwise invoke
the web search; an empty web result falls back to the (possibly empty)
local text; a non-empty web result is formatted and scheduled for
background indexing — unconditionally, without consulting the indexing
status. -/
def dynamicSearch (minThreshold : Nat) (q : String) (nodes : List Node)
    (nResults : Nat) (localFailed : Bool) (webDocs : List DocumentModel) :
    DynOutcome :=
  let lr := searchLocal q nodes nResults localFailed
  if minThreshold ≤ lr.2 then
    ⟨⟨"local", lr.1, 0⟩, false, false⟩
  else if webDocs.isEmpty then
    ⟨⟨"local", if lr.1 = "" then "No results found for '" ++ q ++ "'" else lr.1, 0⟩,
      true, false⟩
  else
    ⟨⟨"web", formatWebResults q webDocs, webDocs.length⟩, true, true⟩

/-- Model of `core/exceptions.py` as visible at the Notion harvest boundary:
`APIError` (service, status code, message) and `FetchError`. -/
inductive CrawlErr where
  | api (service : String) (statusCode : Nat) (msg : String)
  | fetch (msg : String)
deriving DecidableEq, Repr

/-- A raw Notion page object as returned by the paginated search. -/
structure NotionPage where
  pid : String
  title : String
  url : String
  created : String
deriving DecidableEq, Repr

/-- Model of `NotionPageProcessor.build_document` (`fetching/notion.py` lines
166–175): platform-qualified id `notion_{page id}`, platform `"Notion"`.
The title-property fallback chain operates on the raw JSON and is
abstracted into the page's `title` field. -/
def buildNotionDocument (p : NotionPage) (content : String) : DocumentModel :=
  ⟨"notion_" ++ p.pid, p.title, content, p.url, "Notion", p.created⟩

/-- Model of `fetch_notion_pages` (`fetching/notion.py` lines 178–212).  The outcome
of the external paginated search call is `searchPages`; per-page block
content extraction never raises (`fetch_block_content` catches every
exception and returns `""`), so it is a total function `blockContent`.
With no API key the crawler returns an empty list.  An `APIError` from the
search is re-raised unchanged (`except APIError: ... raise`); any other
exception is wrapped in `FetchError("Failed to fetch Notion pages: ...")`
and raised. -/
def fetch_notion_pages (apiKey : String)
    (searchPages : Except CrawlErr (List NotionPage))
    (blockContent : String → String) : Except CrawlErr (List DocumentModel) :=
  if apiKey = "" then .ok []
  else
    match searchPages with
    | .error (.api s c m) => .error (.api s c m)
    | .error (.fetch m) => .error (.fetch ("Failed to fetch Notion pages: " ++ m))
    | .ok pages => .ok (pages.map (fun p => buildNotionDocument p (blockContent p.pid)))

/-- The response of one Tistory post fetch, with the HTML extraction
results (title/date/content fallback chains) already applied. -/
structure TistoryResp where
  status : Nat
  title : String
  date : String
  content : String
deriving DecidableEq, Repr

/-- Model of `fetch_post` (`fetching/tistory.py` lines 148–185): a non-200 status,
an empty extracted content, or any exception (the `except` clause, modelled
by an `.error` response) yields `None`; otherwise the post dict with the
platform-qualified id `tistory_{post_id}`. -/
def fetch_post (blogName : String) (postId : Nat)
    (resp : Except String TistoryResp) : Option DocumentModel :=
  match resp with
  | .error _ => none
  | .ok r =>
      if r.status ≠ 200 then none
      else if r.content = "" then none
      else
        some ⟨"tistory_" ++ natStr postId, r.title, r.content,
          "https://" ++ blogName ++ ".tistory.com/" ++ natStr postId,
          "Tistory", r.date⟩

/-- Model of `fetch_tistory_posts` (`fetching/tistory.py` lines 188–222): probe ids
`1..max_id`; every id whose fetch yields `None` is silently dropped.
`asyncio.as_completed` collects results in completion order; the order is
modelled as submission order (no claim depends on it). -/
def fetch_tistory_posts (blogName : String) (net : Nat → Except String TistoryResp)
    (maxId : Nat) : List DocumentModel :=
  ((List.range maxId).map (· + 1)).filterMap (fun pid => fetch_post blogName pid (net pid))

/-- Model of `NotionSearcher.search` (`fetching/web_searcher.py` lines 25–65): no
API key configured means an immediate empty result; the whole body is
wrapped in `try/except Exception: return []`, so any failure outcome of
the body (parameter `body`) degrades to an empty list. -/
def notionSearcherSearch (apiKey : String)
    (body : Except String (List DocumentModel)) : List DocumentModel :=
  if apiKey = "" then []
  else
    match body with
    | .ok docs => docs
    | .error _ => []

/-- Model of `TistorySearcher.search` (`fetching/tistory.py` lines 69–119 /
`web_searcher.py` lines 68–118): same boundary structure as the Notion
searcher — no blog name means empty, any body failure degrades to `[]`
(per-post failures inside the body are already dropped by `fetch_post`). -/
def tistorySearcherSearch (blogName : String)
    (body : Except String (List DocumentModel)) : List DocumentModel :=
  if blogName = "" then []
  else
    match body with
    | .ok docs => docs
    | .error _ => []

/-- Model of `AppConfig.notion_max_depth` default (`environments/config.py` line 34). -/
def notion_max_depth : Nat := 10

/-- A Notion block: its type, the `plain_text` entries of its `rich_text`
array, the `has_children` flag, and the child blocks that
`_fetch_blocks` would return for it. -/
inductive Block where
  | node (btype : String) (richText : List String) (hasChildren : Bool)
      (children : List Block)

/-- Model of `" ".join(...)` over the collected content parts. -/
def joinSp : List String → String
  | [] => ""
  | [s] => s
  | s :: ss => s ++ " " ++ joinSp ss

/-- Python `str.strip()`: drop leading and trailing whitespace. -/
def stripChars (l : List Char) : List Char :=
  ((l.dropWhile Char.isWhitespace).reverse.dropWhile Char.isWhitespace).reverse

/-- Model of `str.strip()` on strings. -/
def stripStr (s : String) : String := ⟨stripChars s.data⟩

/-- Model of `NotionAPIClient._extract_text_recursive` (`fetching/notion.py` lines
107–134), with explicit recursion fuel so that the definition is
structural (and hence kernel-computable): for each block, collect the
non-empty `plain_text` entries when the block type is in the supported
set; when `has_children`, recurse one level deeper through
`fetch_block_content` — whose `depth > max_depth` guard is the
`maxD < depth + 1` test — and append the child content when non-empty.
Each recursion step increases `depth` by exactly one and consumes one unit
of fuel, so with `fuel = maxD + 1 - depth` the fuel can never run out
before the depth guard stops the recursion; the artificial `fuel = 0`
branch is unreachable. -/
def extractPartsFuel (maxD : Nat) (sup : List String) :
    Nat → List Block → Nat → List String
  | 0, _, _ => []
  | fuel + 1, blocks, depth =>
      blocks.foldr
        (fun b acc =>
          match b with
          | Block.node bt rt hc ch =>
              ((if bt ∈ sup then rt.filter (fun s => s ≠ "") else []) ++
                (let childStr :=
                  if hc then
                    (if maxD < depth + 1 then ""
                     else stripStr (joinSp (extractPartsFuel maxD sup fuel ch (depth + 1))))
                  else ""
                 if childStr = "" then [] else [childStr])) ++ acc)
        []

/-- Model of `NotionAPIClient.fetch_block_content` (`fetching/notion.py` lines
57–73): if `depth > max_depth` log a warning and return `""` for the
subtree; otherwise extract text recursively from the children and join
the parts with `" "`, stripped.  The `try/except` around the block fetch
returns `""` on any fetch failure and is not separately modelled (the
model's block lists are already fetched). -/
def fetchBlockContent (maxD : Nat) (supported : List String)
    (children : List Block) (depth : Nat) : String :=
  if maxD < depth then ""
  else stripStr (joinSp (extractPartsFuel maxD supported (maxD + 1 - depth) children depth))

/-- A linear chain of nested paragraph blocks carrying one text per level. -/
def nestedChain : List String → List Block
  | [] => []
  | t :: ts => [Block.node "paragraph" [t] (!ts.isEmpty) (nestedChain ts)]

/-- Concrete batch fixtures for the trace theorems: ten documents with
distinct ids and contents. -/
def cxDoc (i : Nat) : DocumentModel :=
  ⟨"d" ++ natStr i, "t", "c" ++ natStr i, "u", "p", ""⟩

def cxDocs10 : List DocumentModel := (List.range 10).map (fun i => cxDoc (i + 1))

/-- Snapshot that already stores the current fingerprints (for the identity
digest) of the first nine documents: exactly one document is new. -/
def cxSnap9 : String → Option String := fun s =>
  ((List.range 9).map (fun i => ("d" ++ natStr (i + 1), "c" ++ natStr (i + 1)))).lookup s

/-- Snapshot that already stores the current fingerprints of all ten
documents: the filtered batch is empty. -/
def cxSnapAll : String → Option String := fun s =>
  ((List.range 10).map (fun i => ("d" ++ natStr (i + 1), "c" ++ natStr (i + 1)))).lookup s

/-- A status mid-pass: `Running`, five documents total, two processed. -/
def runningStatus5 : IndexStatusModel := ⟨.running, "Starting indexing...", 2 / 5, 5, 2⟩

def webDocFix : DocumentModel :=
  ⟨"notion_9", "Hit", "web content", "https://n/9", "Notion", ""⟩

/-- Node fixtures with distinct titles (and one duplicate) for concrete
search instances. -/
def nodeFix : Node := ⟨"TitleA", "Notion", "https://n/1", "", "0.512", "body text"⟩

def nodeFixB : Node := ⟨"TitleB", "Tistory", "https://t/2", "", "0.401", "other text"⟩

def nodeFixC : Node := ⟨"TitleC", "Notion", "https://n/3", "", "0.300", "third text"⟩

/-- The ID-range probing scenario of the spec: ids 1 and 3 return 200 with
content, 2 returns 404, 4 returns 200 with empty content, 5 times out. -/
def tistoryScenarioNet : Nat → Except String TistoryResp := fun pid =>
  if pid = 1 then .ok ⟨200, "Post 1", "2024-01-01", "content one"⟩
  else if pid = 2 then .ok ⟨404, "", "", ""⟩
  else if pid = 3 then .ok ⟨200, "Post 3", "2024-01-03", "content three"⟩
  else if pid = 4 then .ok ⟨200, "Post 4", "2024-01-04", ""⟩
  else .error "timeout"

def scenarioDoc1 : DocumentModel :=
  ⟨"tistory_1", "Post 1", "content one", "https://b.tistory.com/1", "Tistory",
    "2024-01-01"⟩

def scenarioDoc3 : DocumentModel :=
  ⟨"tistory_3", "Post 3", "content three", "https://b.tistory.com/3", "Tistory",
    "2024-01-03"⟩

theorem filterGo_toWrite (md5hex : String → String) (snap : String → Option String) :
    ∀ (docs : List DocumentModel) (st : SyncState),
      (filterGo md5hex snap docs st).toWrite = st.toWrite ++ writes md5hex snap docs := by
  intro docs
  induction docs with
  | nil => intro st; simp [filterGo, writes]
  | cons d ds ih =>
      intro st
      simp only [filterGo, writes, syncStep]
      cases h : classifyDoc md5hex snap d <;>
        simp [h, ih, List.append_assoc]

theorem filterGo_deleted (md5hex : String → String) (snap : String → Option String) :
    ∀ (docs : List DocumentModel) (st : SyncState),
      (filterGo md5hex snap docs st).deleted = st.deleted ++ evicted md5hex snap docs := by
  intro docs
  induction docs with
  | nil => intro st; simp [filterGo, evicted]
  | cons d ds ih =>
      intro st
      simp only [filterGo, evicted, syncStep]
      cases h : classifyDoc md5hex snap d <;>
        simp [h, ih, List.append_assoc]

theorem filterGo_store (md5hex : String → String) (snap : String → Option String) :
    ∀ (docs : List DocumentModel) (st : SyncState),
      (filterGo md5hex snap docs st).store =
        st.store.filter (fun r => !(evicted md5hex snap docs).contains r.docId) := by
  intro docs
  induction docs with
  | nil =>
      intro st
      simp [filterGo, evicted]
  | cons d ds ih =>
      intro st
      simp only [filterGo, evicted, syncStep]
      cases h : classifyDoc md5hex snap d
      case newDoc =>
        simp only [h]
        rw [ih]
        simp [h]
      case updatedDoc =>
        simp only [h, if_pos rfl]
        rw [ih]
        simp only [List.filter_filter]
        congr 1
        funext r
        by_cases hid : r.docId = d.id <;> simp [hid, List.contains, Bool.and_comm]
      case unchanged =>
        simp only [h]
        rw [ih]
        simp [h]

theorem classifyDoc_eq_unchanged_iff (md5hex : String → String)
    (snap : String → Option String) (d : DocumentModel) :
    classifyDoc md5hex snap d = .unchanged ↔ snap d.id = some (md5hex d.content) := by
  unfold classifyDoc
  cases h : snap d.id with
  | none => simp
  | some hsh =>
      by_cases he : hsh = md5hex d.content <;> simp [he]

theorem writes_eq_nil (md5hex : String → String) (snap : String → Option String) :
    ∀ docs : List DocumentModel,
      (∀ d ∈ docs, classifyDoc md5hex snap d = .unchanged) →
      writes md5hex snap docs = [] := by
  intro docs
  induction docs with
  | nil => intro _; rfl
  | cons d ds ih =>
      intro h
      have hd := h d (List.mem_cons_self d ds)
      simp only [writes, hd]
      exact ih (fun d' hd' => h d' (List.mem_cons_of_mem d hd'))

theorem writes_filter_eq_nil (md5hex : String → String) (snap : String → Option String)
    (x : String) :
    ∀ docs : List DocumentModel,
      (∀ d' ∈ docs, d'.id = x → classifyDoc md5hex snap d' = .unchanged) →
      (writes md5hex snap docs).filter (fun r => r.docId == x) = [] := by
  intro docs
  induction docs with
  | nil => intro _; rfl
  | cons d ds ih =>
      intro h
      have hds := fun d' hd' => h d' (List.mem_cons_of_mem d hd')
      simp only [writes]
      cases hc : classifyDoc md5hex snap d
      case unchanged => exact ih hds
      case newDoc =>
        have hne : d.id ≠ x := fun he => by
          have := h d (List.mem_cons_self d ds) he
          rw [hc] at this; exact Classification.noConfusion this
        have hb : ((toLlama md5hex d).docId == x) = false := by
          simp [toLlama, hne]
        simpa [List.filter_cons, hb] using ih hds
      case updatedDoc =>
        have hne : d.id ≠ x := fun he => by
          have := h d (List.mem_cons_self d ds) he
          rw [hc] at this; exact Classification.noConfusion this
        have hb : ((toLlama md5hex d).docId == x) = false := by
          simp [toLlama, hne]
        simpa [List.filter_cons, hb] using ih hds

theorem writes_filter_of_mem (md5hex : String → String) (snap : String → Option String)
    (d : DocumentModel) :
    ∀ docs : List DocumentModel, (docs.map (·.id)).Nodup → d ∈ docs →
      classifyDoc md5hex snap d ≠ .unchanged →
      (writes md5hex snap docs).filter (fun r => r.docId == d.id) = [toLlama md5hex d] := by
  intro docs
  induction docs with
  | nil => intro _ hm; exact absurd hm (List.not_mem_nil d)
  | cons d0 ds ih =>
      intro hnd hm hc
      have hnd' : (ds.map (·.id)).Nodup := (List.nodup_cons.mp hnd).2
      have hid0 : d0.id ∉ ds.map (·.id) := (List.nodup_cons.mp hnd).1
      rcases List.mem_cons.mp hm with rfl | hmem
      · -- head is the document itself
        have hb : ((toLlama md5hex d).docId == d.id) = true := by simp [toLlama]
        have hrest := writes_filter_eq_nil md5hex snap d.id ds
          (fun d' hd' he => absurd (he ▸ List.mem_map_of_mem (·.id) hd') hid0)
        simp only [writes]
        cases hcc : classifyDoc md5hex snap d
        case unchanged => exact absurd hcc hc
        case newDoc => simp [List.filter_cons, hb, hrest]
        case updatedDoc => simp [List.filter_cons, hb, hrest]
      · -- head is a different document; its id differs from d.id
        have hne : d0.id ≠ d.id := fun he =>
          hid0 (he ▸ List.mem_map_of_mem (·.id) hmem)
        have hb : ((toLlama md5hex d0).docId == d.id) = false := by
          simp [toLlama, hne]
        simp only [writes]
        cases hcc : classifyDoc md5hex snap d0
        case unchanged => exact ih hnd' hmem hc
        case newDoc =>
          simpa [List.filter_cons, hb] using ih hnd' hmem hc
        case updatedDoc =>
          simpa [List.filter_cons, hb] using ih hnd' hmem hc

theorem evicted_mem_spec (md5hex : String → String) (snap : String → Option String)
    (x : String) :
    ∀ docs : List DocumentModel, x ∈ evicted md5hex snap docs →
      ∃ d' ∈ docs, d'.id = x ∧ classifyDoc md5hex snap d' = .updatedDoc := by
  intro docs
  induction docs with
  | nil => intro h; exact absurd h (List.not_mem_nil x)
  | cons d ds ih =>
      intro h
      simp only [evicted] at h
      by_cases hc : classifyDoc md5hex snap d = .updatedDoc
      · rw [if_pos hc] at h
        rcases List.mem_cons.mp h with rfl | hmem
        · exact ⟨d, List.mem_cons_self d ds, rfl, hc⟩
        · obtain ⟨d', hd', he, hcc⟩ := ih hmem
          exact ⟨d', List.mem_cons_of_mem d hd', he, hcc⟩
      · rw [if_neg hc] at h
        obtain ⟨d', hd', he, hcc⟩ := ih h
        exact ⟨d', List.mem_cons_of_mem d hd', he, hcc⟩

theorem filter_store_unaffected (x : String) (ev : List String) (hx : x ∉ ev) :
    ∀ store : List LlamaDoc,
      (store.filter (fun r => !ev.contains r.docId)).filter (fun r => r.docId == x) =
        store.filter (fun r => r.docId == x) := by
  intro store
  rw [List.filter_filter]
  apply List.filter_congr
  intro r _
  by_cases hr : r.docId = x
  · simp [hr, hx]
  · simp [hr]

theorem lastHash_runPass (md5hex : String → String) (store : List LlamaDoc)
    (docs : List DocumentModel) (hnd : (docs.map (·.id)).Nodup)
    (d : DocumentModel) (hd : d ∈ docs) :
    lastHash (runPass md5hex store docs) d.id = some (md5hex d.content) := by
  have hinj := List.inj_on_of_nodup_map hnd
  have hstore := filterGo_store md5hex (lastHash store) docs ⟨store, [], [], 0, 0⟩
  have hw := filterGo_toWrite md5hex (lastHash store) docs ⟨store, [], [], 0, 0⟩
  simp only [List.nil_append] at hw
  simp only [runPass, filterDocuments]
  rw [lastHash, hstore, hw, List.filter_append]
  by_cases hc : classifyDoc md5hex (lastHash store) d = .unchanged
  · have hWf : (writes md5hex (lastHash store) docs).filter (fun r => r.docId == d.id) = [] :=
      writes_filter_eq_nil md5hex (lastHash store) d.id docs
        (fun d' hd' he => by rw [hinj hd' hd he]; exact hc)
    have hnotev : d.id ∉ evicted md5hex (lastHash store) docs := fun hin => by
      obtain ⟨d', hd', he, hcc⟩ := evicted_mem_spec md5hex (lastHash store) d.id docs hin
      rw [hinj hd' hd he] at hcc
      exact Classification.noConfusion (hcc.symm.trans hc)
    rw [hWf, List.append_nil, filter_store_unaffected d.id _ hnotev store]
    exact (classifyDoc_eq_unchanged_iff md5hex (lastHash store) d).mp hc
  · have hWf := writes_filter_of_mem md5hex (lastHash store) d docs hnd hd hc
    rw [hWf, List.getLast?_append_of_ne_nil _ (by simp)]
    simp [toLlama]

/-- C1: synchronization classification is correct.  Per incoming document
and arbitrary snapshot: an absent id is classified new and the converted
document is appended to the write set; a present id with a differing
fingerprint is classified updated, its id is deleted from the store (and
logged in the eviction set) and the document is appended to the write set;
a present id with an equal fingerprint is classified unchanged and the
processing step leaves the state untouched (excluded from both sets).
In addition, over a whole batch the write set is exactly the conversions of
the non-unchanged documents and the eviction log exactly the ids of the
updated documents, in batch order. -/
theorem classification_correct (md5hex : String → String)
    (snap : String → Option String) (st : SyncState) (d : DocumentModel) :
    (snap d.id = none →
      classifyDoc md5hex snap d = .newDoc ∧
      syncStep md5hex snap st d =
        { st with
          newCount := st.newCount + 1
          toWrite := st.toWrite ++ [toLlama md5hex d] }) ∧
    (∀ h, snap d.id = some h → h ≠ md5hex d.content →
      classifyDoc md5hex snap d = .updatedDoc ∧
      syncStep md5hex snap st d =
        { st with
          updCount := st.updCount + 1
          store := st.store.filter (fun r => r.docId != d.id)
          deleted := st.deleted ++ [d.id]
          toWrite := st.toWrite ++ [toLlama md5hex d] }) ∧
    (∀ h, snap d.id = some h → h = md5hex d.content →
      classifyDoc md5hex snap d = .unchanged ∧
      syncStep md5hex snap st d = st) ∧
    (∀ docs : List DocumentModel,
      (filterGo md5hex snap docs st).toWrite = st.toWrite ++ writes md5hex snap docs ∧
      (filterGo md5hex snap docs st).deleted = st.deleted ++ evicted md5hex snap docs) :=
  by
  refine ⟨?_, ?_, ?_, ?_⟩
  · intro hnone
    have hc : classifyDoc md5hex snap d = .newDoc := by
      unfold classifyDoc; rw [hnone]
    exact ⟨hc, by unfold syncStep; rw [hc]⟩
  · intro h hsome hne
    have hc : classifyDoc md5hex snap d = .updatedDoc := by
      unfold classifyDoc; rw [hsome]; simp [hne]
    exact ⟨hc, by unfold syncStep; rw [hc]⟩
  · intro h hsome heq
    have hc : classifyDoc md5hex snap d = .unchanged := by
      unfold classifyDoc; rw [hsome]; simp [heq]
    exact ⟨hc, by unfold syncStep; rw [hc]⟩
  · intro docs
    exact ⟨filterGo_toWrite md5hex snap docs st, filterGo_deleted md5hex snap docs st⟩

theorem classification_correct_witness :
    (classifyDoc (fun s => s) snapFix docNew = .newDoc ∧
      (syncStep (fun s => s) snapFix emptySync docNew).toWrite =
        [toLlama (fun s => s) docNew]) ∧
    (classifyDoc (fun s => s) snapFix docUpd = .updatedDoc ∧
      (syncStep (fun s => s) snapFix emptySync docUpd).deleted = ["tistory_2"]) ∧
    (classifyDoc (fun s => s) snapFix docSame = .unchanged ∧
      syncStep (fun s => s) snapFix emptySync docSame = emptySync) := by
  have h1 := (classification_correct (fun s => s) snapFix emptySync docNew).1
    (by decide)
  have h2 := ((classification_correct (fun s => s) snapFix emptySync docUpd).2.1)
    "stale" (by decide) (by decide)
  have h3 := ((classification_correct (fun s => s) snapFix emptySync docSame).2.2.1)
    "same text" (by decide) (by decide)
  refine ⟨⟨h1.1, ?_⟩, ⟨h2.1, ?_⟩, h3⟩
  · rw [h1.2]; decide
  · rw [h2.2]; decide

/-- C4 (amended): synchronization is idempotent for batches with pairwise
distinct ids.  Running the classification a second time, on the identical
batch, against the store state produced by the first run, classifies every
document unchanged and yields an empty write set — because the fingerprint
stored at write time is computed by the same function on the same content
as at comparison time. -/
theorem sync_idempotent_of_nodup (md5hex : String → String) (store : List LlamaDoc)
    (docs : List DocumentModel) (hnd : (docs.map (·.id)).Nodup) :
    (filterDocuments md5hex (runPass md5hex store docs) docs).toWrite = [] := by
  rw [filterDocuments, filterGo_toWrite]
  simp only [List.nil_append]
  apply writes_eq_nil
  intro d hd
  rw [classifyDoc_eq_unchanged_iff]
  exact lastHash_runPass md5hex store docs hnd d hd

theorem sync_idempotent_witness :
    (filterDocuments (fun s => s)
      (runPass (fun s => s) [] [docNew, docUpd]) [docNew, docUpd]).toWrite = [] :=
  sync_idempotent_of_nodup (fun s => s) [] [docNew, docUpd] (by decide)

/-- C4 counterexample: on the batch `[dupA, dupB]` — two documents with the
same id `"x"` and different contents — a second run of the synchronization
over the store produced by the first run still classifies `dupA` as updated
(the snapshot maps `"x"` to the hash of the *last* stored record, `dupB`'s),
so the second write set is `[toLlama dupA]`, not empty.  The digest is
instantiated with the identity function; MD5 likewise maps the two distinct
contents `"a"` and `"b"` to distinct digests, so the program behaves the
same way.  This refutes the claim as stated, which quantifies over every
batch of documents. -/
theorem sync_idempotence_fails_on_duplicate_ids :
    (filterDocuments (fun s => s)
        (runPass (fun s => s) [] [dupA, dupB]) [dupA, dupB]).toWrite =
      [toLlama (fun s => s) dupA] ∧
    (filterDocuments (fun s => s)
        (runPass (fun s => s) [] [dupA, dupB]) [dupA, dupB]).toWrite ≠ [] := by
  constructor
  · decide
  · decide

theorem writes_length_le (md5hex : String → String) (snap : String → Option String) :
    ∀ docs : List DocumentModel, (writes md5hex snap docs).length ≤ docs.length := by
  intro docs
  induction docs with
  | nil => exact Nat.le_refl 0
  | cons d ds ih =>
      simp only [writes]
      cases classifyDoc md5hex snap d <;> simp [List.length_cons] <;> omega

theorem scanl_all {α β : Type} (f : β → α → β) (P : β → Prop) :
    ∀ (l : List α) (b : β), P b → (∀ b' a, a ∈ l → P b' → P (f b' a)) →
      ∀ x ∈ List.scanl f b l, P x := by
  intro l
  induction l with
  | nil =>
      intro b hb _ x hx
      simp only [List.scanl_nil, List.mem_singleton] at hx
      rwa [hx]
  | cons a l ih =>
      intro b hb hstep x hx
      rw [List.scanl_cons] at hx
      rcases List.mem_cons.mp hx with rfl | hx'
      · exact hb
      · exact ih (f b a) (hstep b a (List.mem_cons_self a l) hb)
          (fun b' a' ha' => hstep b' a' (List.mem_cons_of_mem a ha')) x hx'

theorem indexEvents_shape (md5hex : String → String) (snap : String → Option String)
    (docs : List DocumentModel) (interval batchSize : Nat) (wf : Option String) :
    ∃ tl, indexEvents md5hex snap docs interval batchSize wf =
        Event.start docs.length :: tl ∧
      ∀ e ∈ tl, (∃ msg, e = Event.done msg) ∨ (∃ msg, e = Event.error msg) ∨
        (∃ p t, e = Event.update p t ∧ p ≤ docs.length ∧ 0 < t ∧ t ≤ docs.length) := by
  refine ⟨_, rfl, ?_⟩
  intro e he
  by_cases hde : docs.isEmpty
  · simp only [indexEvents, hde, if_pos, List.mem_singleton] at he
    exact Or.inl ⟨_, he⟩
  · have hn : 0 < docs.length := by
      cases docs with
      | nil => simp at hde
      | cons _ _ => simp
    simp only [hde, if_neg, Bool.false_eq_true, not_false_iff] at he
    rcases List.mem_append.mp he with hf | hr
    · obtain ⟨i, hi, rfl⟩ := List.mem_map.mp hf
      have hi' : i ∈ List.range' 1 docs.length := List.mem_of_mem_filter hi
      have := List.mem_range'_1.mp hi'
      exact Or.inr (Or.inr ⟨i, docs.length, rfl, by omega, hn, Nat.le_refl _⟩)
    · by_cases hm : (filterGo md5hex snap docs ⟨[], [], [], 0, 0⟩).toWrite.length = 0
      · simp only [hm, if_pos, List.mem_singleton] at hr
        exact Or.inl ⟨_, hr⟩
      · have hmn : (filterGo md5hex snap docs ⟨[], [], [], 0, 0⟩).toWrite.length ≤
            docs.length := by
          rw [filterGo_toWrite]
          simpa using writes_length_le md5hex snap docs
        simp only [hm, if_neg, not_false_iff] at hr
        match wf, hr with
        | some msg, hr =>
            simp only [List.mem_singleton] at hr
            exact Or.inr (Or.inl ⟨_, hr⟩)
        | none, hr =>
            rcases List.mem_append.mp hr with hb | hd
            · obtain ⟨p, hp, rfl⟩ := List.mem_map.mp hb
              obtain ⟨c, _, rfl⟩ := List.mem_map.mp hp
              refine Or.inr (Or.inr ⟨_, _, rfl, ?_, Nat.pos_of_ne_zero hm, hmn⟩)
              exact le_trans (min_le_left _ _) hmn
            · simp only [List.mem_singleton] at hd
              exact Or.inl ⟨_, hd⟩

/-- C5 (amended): starting an indexing pass from a fresh status,
`processed_docs` never exceeds `total_docs` at any point of the trace, and
the progress-update values are non-decreasing *within* the filtering phase
and *within* the batch-writing phase separately.  (As the counterexample
shows, `processed_docs` may decrease at the transition between the two
phases, because `_batch_index` reports progress against the filtered
count, so the claim's cross-phase monotonicity fails.) -/
theorem progress_bounded_and_phase_monotone (md5hex : String → String)
    (snap : String → Option String) (docs : List DocumentModel)
    (interval batchSize : Nat) (_hI : 0 < interval) (_hB : 0 < batchSize) :
    (∀ s ∈ statuses freshStatus (indexEvents md5hex snap docs interval batchSize none),
      s.processed_docs ≤ s.total_docs) ∧
    List.Chain' (· ≤ ·) (filterUpdates docs.length interval) ∧
    List.Chain' (· ≤ ·)
      (batchUpdates (filterGo md5hex snap docs ⟨[], [], [], 0, 0⟩).toWrite.length
        batchSize) := by
  refine ⟨?_, ?_, ?_⟩
  · obtain ⟨tl, htl, hspec⟩ := indexEvents_shape md5hex snap docs interval batchSize none
    intro s hs
    rw [statuses, htl, List.scanl_cons] at hs
    rcases List.mem_cons.mp hs with rfl | hs'
    · exact Nat.le_refl _
    · have hinv := scanl_all applyEvent
        (fun st => st.total_docs = docs.length ∧ st.processed_docs ≤ docs.length) tl
        (applyEvent freshStatus (.start docs.length)) ⟨rfl, Nat.zero_le _⟩
        (fun b a ha hb => by
          rcases hspec a ha with ⟨msg, rfl⟩ | ⟨msg, rfl⟩ | ⟨p, t, rfl, hp, _, _⟩
          · exact ⟨hb.1, hb.2⟩
          · exact ⟨hb.1, hb.2⟩
          · exact ⟨hb.1, hp⟩)
        s hs'
      obtain ⟨h1, h2⟩ := hinv
      omega
  · exact (((List.pairwise_lt_range' 1 docs.length).filter _).imp le_of_lt).chain'
  · apply List.Pairwise.chain'
    rw [batchUpdates, chunkStarts, List.pairwise_map, List.pairwise_map]
    exact (List.pairwise_lt_range _).imp
      (fun hij => min_le_min (Nat.le_refl _)
        (Nat.add_le_add_right (Nat.mul_le_mul_right _ (le_of_lt hij)) _))

set_option maxRecDepth 8000 in
theorem progress_bounded_witness :
    (⟨IndexState.done, "Complete: 1 new, 0 updated", 1, 10, 1⟩ :
        IndexStatusModel).processed_docs ≤
      (⟨IndexState.done, "Complete: 1 new, 0 updated", 1, 10, 1⟩ :
        IndexStatusModel).total_docs :=
  (progress_bounded_and_phase_monotone (fun s => s) cxSnap9 cxDocs10 10 50
      (by decide) (by decide)).1 _ (by decide)

/-- C5 counterexample: a fresh pass over ten documents of which exactly one
is new (interval 10, batch size 50, the defaults).  The filtering phase
reports `processed_docs = 10`, then the first (and only) write batch
reports `processed_docs = 1` — computed against the *filtered* count — so
the `processed_docs` sequence over the status updates of one pass is
`[0, 0, 10, 1, 1]`, which is not non-decreasing.  This refutes the claim
that `processed_docs` is non-decreasing across the filtering and
batch-writing phases. -/
theorem processed_docs_drops_between_phases :
    (statuses freshStatus (indexEvents (fun s => s) cxSnap9 cxDocs10 10 50 none)).map
        (fun s => s.processed_docs) = [0, 0, 10, 1, 1] ∧
    ¬ List.Chain' (· ≤ ·) ([0, 0, 10, 1, 1] : List Nat) := by
  refine ⟨by decide, fun h => ?_⟩
  simp [List.chain'_cons] at h

/-- C9 (amended): an empty incoming batch completes immediately with Done
and no progress division is ever evaluated; and in every pass — whatever
the snapshot, batch, and failure behaviour — every evaluated progress
division `processed/total` has a strictly positive denominator.  (The
claim's further statement that a pass whose *filtered* batch is empty also
completes before any division is evaluated is refuted by the
counterexample: such a pass still evaluates the filtering-phase divisions,
with denominator equal to the incoming batch size.) -/
theorem no_zero_denominator (md5hex : String → String)
    (snap : String → Option String) (docs : List DocumentModel)
    (interval batchSize : Nat) (wf : Option String) :
    (docs = [] → indexEvents md5hex snap docs interval batchSize wf =
      [Event.start 0, Event.done "No documents to index"]) ∧
    (∀ p t, Event.update p t ∈ indexEvents md5hex snap docs interval batchSize wf →
      0 < t) := by
  constructor
  · rintro rfl
    rfl
  · intro p t hm
    obtain ⟨tl, htl, hspec⟩ := indexEvents_shape md5hex snap docs interval batchSize wf
    rw [htl] at hm
    rcases List.mem_cons.mp hm with he | hm'
    · exact absurd he (by simp)
    · rcases hspec _ hm' with ⟨msg, he⟩ | ⟨msg, he⟩ | ⟨p', t', he, _, ht, _⟩
      · exact absurd he (by simp)
      · exact absurd he (by simp)
      · injection he with h1 h2
        rw [h2]
        exact ht

set_option maxRecDepth 8000 in
theorem no_zero_denominator_witness :
    indexEvents (fun s => s) (fun _ => none) ([] : List DocumentModel) 10 50 none =
      [Event.start 0, Event.done "No documents to index"] ∧ (0 : Nat) < 10 :=
  ⟨(no_zero_denominator (fun s => s) (fun _ => none) [] 10 50 none).1 rfl,
    (no_zero_denominator (fun s => s) cxSnap9 cxDocs10 10 50 none).2 10 10 (by decide)⟩

/-- C9 counterexample: a pass over ten documents that are all unchanged
(the filtered batch is empty).  The pass does complete with Done — but
only after the filtering-phase progress update `update 10 10`, i.e. after
a progress division has been evaluated, refuting the claim that such a
pass "completes immediately with Done before any progress division is
evaluated".  (The division's denominator, 10, is positive, so the
no-division-by-zero core of the claim is untouched.) -/
theorem division_evaluated_before_done_on_empty_filtered :
    (filterGo (fun s => s) cxSnapAll cxDocs10 ⟨[], [], [], 0, 0⟩).toWrite = [] ∧
    indexEvents (fun s => s) cxSnapAll cxDocs10 10 50 none =
      [Event.start 10, Event.update 10 10, Event.done "No new or updated documents"] :=
  ⟨by decide, by decide⟩

theorem foldl_updates_state (n : Nat) :
    ∀ (ups : List Nat) (st : IndexStatusModel),
      (List.foldl applyEvent st (ups.map (fun i => Event.update i n))).state = st.state := by
  intro ups
  induction ups with
  | nil => intro st; rfl
  | cons u us ih => intro st; exact ih _

/-- C6 (amended): on an unrecoverable failure during writing, the pass
transitions from Running to Error and the status message carries the
failure description — but `progress` (and every other field except `state`
and `message`) is left *unchanged* at its pre-failure value, which is not
in general 1.0: the `except` handler in `indexing/indexer.py` lines 54–59
calls `_update_status(state=ERROR, message=...)` without touching
`progress`.  (The legacy duplicate of this handler in `src/main.py` lines
250–256 does set `progress=1.0`, which is what the claim describes.) -/
theorem error_transition (md5hex : String → String) (snap : String → Option String)
    (docs : List DocumentModel) (interval batchSize : Nat) (msg : String)
    (hne : docs ≠ [])
    (hw : (filterGo md5hex snap docs ⟨[], [], [], 0, 0⟩).toWrite ≠ []) :
    finalStatus freshStatus (indexEvents md5hex snap docs interval batchSize (some msg)) =
      { finalStatus freshStatus
          ((indexEvents md5hex snap docs interval batchSize (some msg)).dropLast) with
        state := .error, message := "Error: " ++ msg } ∧
    (finalStatus freshStatus
      ((indexEvents md5hex snap docs interval batchSize (some msg)).dropLast)).state =
        .running := by
  have hde : docs.isEmpty = false := by
    cases docs with
    | nil => exact absurd rfl hne
    | cons _ _ => rfl
  have hm : ¬ (filterGo md5hex snap docs ⟨[], [], [], 0, 0⟩).toWrite.length = 0 := by
    simpa [List.length_eq_zero] using hw
  have hevs : indexEvents md5hex snap docs interval batchSize (some msg) =
      (Event.start docs.length ::
        (filterUpdates docs.length interval).map
          (fun i => Event.update i docs.length)) ++
        [Event.error ("Error: " ++ msg)] := by
    simp [indexEvents, hde, hm]
  rw [hevs, List.dropLast_concat]
  constructor
  · rw [finalStatus, finalStatus, List.foldl_append]
    rfl
  · rw [finalStatus, List.foldl_cons]
    exact foldl_updates_state docs.length _ _

theorem error_transition_witness :
    (finalStatus freshStatus
        (indexEvents (fun s => s) (fun _ => none) [docNew] 10 50 (some "x"))).state =
      IndexState.error ∧
    (finalStatus freshStatus
        ((indexEvents (fun s => s) (fun _ => none) [docNew] 10 50 (some "x")).dropLast)).state =
      IndexState.running := by
  have h := error_transition (fun s => s) (fun _ => none) [docNew] 10 50 "x"
    (by decide) (by decide)
  exact ⟨by rw [h.1], h.2⟩

/-- C6 counterexample: a pass over one new document whose store write
fails.  The final status is Error and the message carries the failure
description, but `progress` is still 0 — not 1.0 — because the error
handler of `ContentIndexer.index_documents` leaves `progress` untouched.
This refutes the claim's statement that progress is left at 1.0. -/
theorem error_leaves_progress_below_one :
    (finalStatus freshStatus
        (indexEvents (fun s => s) (fun _ => none) [docNew] 10 50 (some "boom"))).state =
      IndexState.error ∧
    (finalStatus freshStatus
        (indexEvents (fun s => s) (fun _ => none) [docNew] 10 50 (some "boom"))).message =
      "Error: boom" ∧
    (finalStatus freshStatus
        (indexEvents (fun s => s) (fun _ => none) [docNew] 10 50 (some "boom"))).progress ≠
      1 :=
  ⟨by decide, by decide, by decide⟩

/-- C2 (amended): the explicit trigger path
(`trigger_index_all_content`) is guarded — while the state is Running it
returns the "already in progress" message and creates no task, and it
never mutates the status at all; but the web-fallback ingestion path
schedules background indexing purely from the local-count shortfall and
web results, without consulting the status, and `index_documents` begins a
pass (setting state Running and overwriting `total_docs`) unconditionally.
A second concurrent pass is therefore possible through the web-fallback
path, and exclusivity holds only for the explicit trigger path. -/
theorem trigger_guard_but_web_path_unguarded (st : IndexStatusModel) :
    (st.state = .running →
      trigger_index_all_content st = ("이미 인덱싱이 진행 중입니다.", false)) ∧
    (st.state ≠ .running →
      (trigger_index_all_content st).2 = true) ∧
    (∀ (minT nr : Nat) (q : String) (nodes : List Node) (lf : Bool)
        (webDocs : List DocumentModel),
      (searchLocal q nodes nr lf).2 < minT → webDocs ≠ [] →
      (dynamicSearch minT q nodes nr lf webDocs).indexingScheduled = true) ∧
    (∀ docs : List DocumentModel,
      (applyEvent st (Event.start docs.length)).state = .running ∧
      (applyEvent st (Event.start docs.length)).total_docs = docs.length) := by
  refine ⟨?_, ?_, ?_, ?_⟩
  · intro h
    simp [trigger_index_all_content, h]
  · intro h
    simp [trigger_index_all_content, h]
  · intro minT nr q nodes lf webDocs hlt hnw
    have h1 : ¬ minT ≤ (searchLocal q nodes nr lf).2 := Nat.not_le.mpr hlt
    have h2 : webDocs.isEmpty = false := by
      cases webDocs with
      | nil => exact absurd rfl hnw
      | cons _ _ => rfl
    simp [dynamicSearch, h1, h2]
  · intro docs
    exact ⟨rfl, rfl⟩

theorem trigger_guard_witness :
    trigger_index_all_content runningStatus5 = ("이미 인덱싱이 진행 중입니다.", false) ∧
    (trigger_index_all_content freshStatus).2 = true ∧
    (dynamicSearch 3 "w" [] 10 false [webDocFix]).indexingScheduled = true :=
  ⟨(trigger_guard_but_web_path_unguarded runningStatus5).1 (by decide),
    (trigger_guard_but_web_path_unguarded freshStatus).2.1 (by decide),
    (trigger_guard_but_web_path_unguarded freshStatus).2.2.1 3 10 "w" [] false
      [webDocFix] (by decide) (by decide)⟩

/-- C2 counterexample: with the status mid-pass (`Running`,
`total_docs = 5`), a web-fallback search that finds one document schedules
background ingestion anyway (`indexingScheduled = true`, and the caller
receives a `source = "web"` result, not an "already in progress"
indication); the scheduled `index_documents` call then starts a pass
unconditionally, leaving the state `Running` and overwriting `total_docs`
from 5 to 1.  This refutes the claim that every scheduling path —
including the web-fallback ingestion — rejects a trigger while Running and
leaves `total_docs` unaltered. -/
theorem web_ingestion_ignores_running_state :
    (dynamicSearch 3 "q" [] 10 false [webDocFix]).indexingScheduled = true ∧
    (dynamicSearch 3 "q" [] 10 false [webDocFix]).result.source = "web" ∧
    runningStatus5.state = IndexState.running ∧
    runningStatus5.total_docs = 5 ∧
    (applyEvent runningStatus5 (Event.start 1)).total_docs = 1 :=
  ⟨by decide, by decide, by decide, by decide, by decide⟩

theorem stripPre?_append (p l : List Char) : stripPre? p (p ++ l) = some l := by
  induction p with
  | nil => rfl
  | cons c cs ih => simpa [stripPre?] using ih

theorem stripPre?_eq_some (p : List Char) :
    ∀ l r : List Char, stripPre? p l = some r → l = p ++ r := by
  induction p with
  | nil =>
      intro l r h
      simp only [stripPre?, Option.some.injEq] at h
      simp [h]
  | cons c cs ih =>
      intro l r h
      cases l with
      | nil => exact absurd h (by simp [stripPre?])
      | cons a as =>
          by_cases he : c = a
          · subst he
            simp only [stripPre?, if_pos rfl] at h
            simp [ih as r h]
          · simp [stripPre?, he] at h

theorem spanDigits_eq (l : List Char) :
    l = (spanDigits l).1 ++ (spanDigits l).2 ∧
      ∀ c ∈ (spanDigits l).1, c.isDigit = true := by
  induction l with
  | nil => exact ⟨rfl, by simp [spanDigits]⟩
  | cons c cs ih =>
      by_cases h : c.isDigit
      · constructor
        · simpa [spanDigits, h] using ih.1
        · intro x hx
          simp only [spanDigits, h, if_pos] at hx
          rcases List.mem_cons.mp hx with rfl | hx'
          · exact h
          · exact ih.2 x hx'
      · exact ⟨by simp [spanDigits, h], by simp [spanDigits, h]⟩

theorem spanDigits_append (ds : List Char) :
    ∀ r : List Char, (∀ c ∈ ds, c.isDigit = true) →
      (∀ c, r.head? = some c → c.isDigit = false) →
      spanDigits (ds ++ r) = (ds, r) := by
  induction ds with
  | nil =>
      intro r _ hr
      cases r with
      | nil => rfl
      | cons c cs => simp [spanDigits, hr c rfl]
  | cons d ds' ih =>
      intro r hds hr
      have hd : d.isDigit = true := hds d (List.mem_cons_self d ds')
      have := ih r (fun c hc => hds c (List.mem_cons_of_mem d hc)) hr
      simp [spanDigits, hd, this]

theorem digitRunVal_concat (ds : List Char) (c : Char) :
    digitRunVal (ds ++ [c]) = 10 * digitRunVal ds + (c.toNat - 48) := by
  simp [digitRunVal, List.foldl_append]

theorem toDigitChar_spec (d : Nat) (h : d < 10) :
    (toDigitChar d).isDigit = true ∧ (toDigitChar d).toNat = 48 + d := by
  unfold toDigitChar
  interval_cases d <;> exact ⟨by decide, by decide⟩

theorem natDigitsAux_spec : ∀ fuel n : Nat, n < fuel →
    natDigitsAux fuel n ≠ [] ∧ (∀ c ∈ natDigitsAux fuel n, c.isDigit = true) ∧
      digitRunVal (natDigitsAux fuel n) = n := by
  intro fuel
  induction fuel with
  | zero => intro n h; omega
  | succ f ih =>
      intro n h
      by_cases hn : n < 10
      · have hrw : natDigitsAux (f + 1) n = [toDigitChar n] := by
          simp [natDigitsAux, hn]
        rw [hrw]
        refine ⟨by simp, ?_, ?_⟩
        · intro c hc
          rw [List.mem_singleton.mp hc]
          exact (toDigitChar_spec n hn).1
        · simp [digitRunVal, (toDigitChar_spec n hn).2]
      · have hdiv : n / 10 < n := Nat.div_lt_self (by omega) (by omega)
        have hf : n / 10 < f := by omega
        obtain ⟨ih1, ih2, ih3⟩ := ih (n / 10) hf
        have hmod : n % 10 < 10 := Nat.mod_lt n (by omega)
        have hrw : natDigitsAux (f + 1) n =
            natDigitsAux f (n / 10) ++ [toDigitChar (n % 10)] := by
          simp [natDigitsAux, hn]
        rw [hrw]
        refine ⟨by simp, ?_, ?_⟩
        · intro c hc
          rcases List.mem_append.mp hc with hc' | hc'
          · exact ih2 c hc'
          · rw [List.mem_singleton.mp hc']
            exact (toDigitChar_spec _ hmod).1
        · rw [digitRunVal_concat, ih3, (toDigitChar_spec _ hmod).2]
          omega

theorem natDigits_spec (n : Nat) :
    natDigits n ≠ [] ∧ (∀ c ∈ natDigits n, c.isDigit = true) ∧
      digitRunVal (natDigits n) = n :=
  natDigitsAux_spec (n + 1) n (Nat.lt_succ_self n)

theorem matchTotalAt_canonical (ds r : List Char) (h1 : ds ≠ [])
    (h2 : ∀ c ∈ ds, c.isDigit = true) :
    matchTotalAt (totalPat ++ (ds ++ (docsFoundPat ++ r))) = some (digitRunVal ds) := by
  have hspan : spanDigits (ds ++ (docsFoundPat ++ r)) = (ds, docsFoundPat ++ r) :=
    spanDigits_append ds (docsFoundPat ++ r) h2 (by intro c hc; cases hc; decide)
  simp [matchTotalAt, stripPre?_append, hspan, h1]

theorem matchTotalAt_eq_some (l : List Char) (n : Nat)
    (h : matchTotalAt l = some n) :
    ∃ ds r, l = totalPat ++ (ds ++ (docsFoundPat ++ r)) ∧ ds ≠ [] ∧
      (∀ c ∈ ds, c.isDigit = true) ∧ n = digitRunVal ds := by
  unfold matchTotalAt at h
  cases h1 : stripPre? totalPat l with
  | none => rw [h1] at h; exact absurd h (by simp)
  | some r1 =>
      rw [h1] at h
      simp only at h
      by_cases hds : (spanDigits r1).1 = []
      · rw [if_pos hds] at h
        exact absurd h (by simp)
      · rw [if_neg hds] at h
        cases h2 : stripPre? docsFoundPat (spanDigits r1).2 with
        | none => rw [h2] at h; exact absurd h (by simp)
        | some r2 =>
            rw [h2] at h
            simp only [Option.some.injEq] at h
            refine ⟨(spanDigits r1).1, r2, ?_, hds, (spanDigits_eq r1).2, h.symm⟩
            have hl := stripPre?_eq_some totalPat l r1 h1
            have hr1 := (spanDigits_eq r1).1
            have hr2 := stripPre?_eq_some docsFoundPat _ r2 h2
            calc l = totalPat ++ r1 := hl
              _ = totalPat ++ ((spanDigits r1).1 ++ (spanDigits r1).2) := by rw [← hr1]
              _ = totalPat ++ ((spanDigits r1).1 ++ (docsFoundPat ++ r2)) := by rw [hr2]

theorem matchTotalAt_nil : matchTotalAt [] = none := by decide

theorem findCount_of_matchTotalAt (l : List Char) (n : Nat)
    (h : matchTotalAt l = some n) : findCount l = some n := by
  cases l with
  | nil => rw [matchTotalAt_nil] at h; exact absurd h (by simp)
  | cons c cs => simp [findCount, h]

theorem findCount_none_suffix (l : List Char) (h : findCount l = none) :
    ∀ x, x <:+ l → matchTotalAt x = none := by
  induction l with
  | nil =>
      intro x hx
      rw [List.suffix_nil.mp hx]
      exact matchTotalAt_nil
  | cons c cs ih =>
      intro x hx
      have hm : matchTotalAt (c :: cs) = none := by
        cases hm' : matchTotalAt (c :: cs) with
        | none => rfl
        | some n => rw [findCount, hm'] at h; exact absurd h (by simp)
      have htail : findCount cs = none := by
        rw [findCount, hm] at h
        exact h
      rcases List.suffix_cons_iff.mp hx with rfl | hx'
      · exact hm
      · exact ih htail x hx'

theorem findCount_append_of_no_match :
    ∀ A B : List Char, (∀ x, x <:+ A → x ≠ [] → matchTotalAt (x ++ B) = none) →
      findCount (A ++ B) = findCount B := by
  intro A
  induction A with
  | nil => intro B _; rfl
  | cons a A' ih =>
      intro B h
      have hself : matchTotalAt (a :: (A' ++ B)) = none := by
        have := h (a :: A') (List.suffix_refl _) (by simp)
        simpa using this
      rw [List.cons_append, findCount, hself]
      exact ih B (fun x hx hne =>
        h x (hx.trans (List.suffix_cons a A')) hne)

theorem suffix_split {α : Type} (x Y Z : List α) (h : x <:+ Y ++ Z) :
    x <:+ Z ∨ ∃ y, y <:+ Y ∧ y ≠ [] ∧ x = y ++ Z := by
  obtain ⟨t, ht⟩ := h
  rcases List.append_eq_append_iff.mp ht with ⟨a, hY, hx⟩ | ⟨c, ht', hZ⟩
  · cases a with
    | nil => exact Or.inl (by simp at hx; exact hx ▸ List.suffix_refl Z)
    | cons a0 a' =>
        exact Or.inr ⟨a0 :: a', ⟨t, hY.symm⟩, by simp, hx⟩
  · exact Or.inl ⟨c, hZ.symm⟩

theorem no_match_no_T (H : List Char) (hH : 'T' ∉ H) :
    ∀ x, x <:+ H → x ≠ [] → ∀ z, matchTotalAt (x ++ z) = none := by
  intro x hx hne z
  cases x with
  | nil => exact absurd rfl hne
  | cons c x' =>
      have hc : c ∈ H := hx.subset (List.mem_cons_self c x')
      have hcT : ¬ ('T' = c) := fun he => hH (he ▸ hc)
      have hpat : totalPat = 'T' :: "otal ".data := by decide
      rw [List.cons_append]
      unfold matchTotalAt
      rw [hpat]
      simp [stripPre?, hcT]

theorem no_match_crossing_quote (q : List Char) (hq : findCount q = none) :
    ∀ x, x <:+ q → ∀ z, matchTotalAt (x ++ Char.ofNat 39 :: z) = none := by
  intro x hx z
  cases hm : matchTotalAt (x ++ Char.ofNat 39 :: z) with
  | none => rfl
  | some n =>
      exfalso
      obtain ⟨ds, r, heq, hds, hdig, rfl⟩ := matchTotalAt_eq_some _ _ hm
      have hCq : Char.ofNat 39 ∉ totalPat ++ (ds ++ docsFoundPat) := by
        intro hmem
        rcases List.mem_append.mp hmem with h1 | h2
        · revert h1; decide
        · rcases List.mem_append.mp h2 with h3 | h4
          · have := hdig _ h3
            have h39 : (Char.ofNat 39).isDigit = false := by decide
            rw [h39] at this
            exact Bool.noConfusion this
          · revert h4; decide
      have heq' : (totalPat ++ (ds ++ docsFoundPat)) ++ r = x ++ Char.ofNat 39 :: z := by
        simpa [List.append_assoc] using heq.symm
      have hsome : ∀ r', matchTotalAt ((totalPat ++ (ds ++ docsFoundPat)) ++ r') =
          some (digitRunVal ds) := by
        intro r'
        have := matchTotalAt_canonical ds r' hds hdig
        simpa [List.append_assoc] using this
      rcases List.append_eq_append_iff.mp heq' with ⟨a, hxa, hra⟩ | ⟨c', hxc, hrc⟩
      · -- the whole pattern is a prefix of x, which is a suffix of q
        have hmx : matchTotalAt x = some (digitRunVal ds) := by
          rw [hxa]
          exact hsome a
        exact absurd (findCount_none_suffix q hq x hx) (by simp [hmx])
      · cases c' with
        | nil =>
            -- the pattern is exactly x
            have hxC : x = totalPat ++ (ds ++ docsFoundPat) := by
              have := hxc
              simp only [List.append_nil] at this
              exact this.symm
            have hmx : matchTotalAt x = some (digitRunVal ds) := by
              have h0 := hsome []
              rw [List.append_nil] at h0
              rw [hxC]
              exact h0
            exact absurd (findCount_none_suffix q hq x hx) (by simp [hmx])
        | cons e c'' =>
            -- the pattern extends past the quote character: impossible
            rw [List.cons_append] at hrc
            injection hrc with h1 h2
            have : Char.ofNat 39 ∈ totalPat ++ (ds ++ docsFoundPat) := by
              rw [hxc]
              exact List.mem_append.mpr (Or.inr (h1 ▸ List.mem_cons_self e c''))
            exact hCq this

theorem findCount_wrapped (H q w B : List Char) (hH : 'T' ∉ H)
    (hq : findCount q = none) (hw : 'T' ∉ w) :
    findCount ((H ++ q ++ (Char.ofNat 39 :: w)) ++ B) = findCount B := by
  apply findCount_append_of_no_match
  intro x hx hne
  rcases suffix_split x (H) (q ++ (Char.ofNat 39 :: w)) (by simpa [List.append_assoc] using hx)
    with hx1 | ⟨y, hy, hyne, rfl⟩
  · rcases suffix_split x q (Char.ofNat 39 :: w) hx1 with hx2 | ⟨y, hy, hyne, rfl⟩
    · have hqw : 'T' ∉ Char.ofNat 39 :: w := by
        intro hmem
        rcases List.mem_cons.mp hmem with he | hm
        · exact absurd he (by decide)
        · exact hw hm
      exact no_match_no_T _ hqw x hx2 hne B
    · have := no_match_crossing_quote q hq y hy (w ++ B)
      simpa [List.append_assoc] using this
  · have := no_match_no_T H hH y hy hyne ((q ++ (Char.ofNat 39 :: w)) ++ B)
    simpa [List.append_assoc] using this

theorem dedupResults_ne_nil (nodes : List Node) (limit : Nat) (h : nodes ≠ []) :
    dedupResults nodes limit ≠ [] := by
  cases nodes with
  | nil => exact absurd rfl h
  | cons n ns =>
      show dedupGo limit (n :: ns) [] 0 ≠ []
      simp only [dedupGo, List.not_mem_nil, if_false]
      by_cases hl : limit ≤ 0 + 1 <;> simp [hl]

theorem dedupGo_length_le (limit : Nat) :
    ∀ (nodes : List Node) (seen : List String) (c : Nat), c < limit →
      (dedupGo limit nodes seen c).length ≤ limit - c := by
  intro nodes
  induction nodes with
  | nil =>
      intro seen c _
      simp [dedupGo]
  | cons n ns ih =>
      intro seen c h
      by_cases hs : n.title ∈ seen
      · simp only [dedupGo, if_pos hs]
        exact ih seen c h
      · simp only [dedupGo, if_neg hs]
        by_cases hl : limit ≤ c + 1
        · simp only [if_pos hl, List.length_singleton]
          omega
        · simp only [if_neg hl, List.length_cons]
          have := ih (n.title :: seen) (c + 1) (by omega)
          omega

theorem joinNl_data_cons_cons (a b : String) (l : List String) :
    (joinNl (a :: b :: l)).data = a.data ++ Char.ofNat 10 :: (joinNl (b :: l)).data := by
  show (a ++ "\n" ++ joinNl (b :: l)).data = _
  rw [String.data_append, String.data_append]
  simp [show ("\n" : String).data = [Char.ofNat 10] by decide]

theorem formatResults_data (q : String) (nodes : List Node) (limit : Nat)
    (hne : nodes ≠ []) :
    ∃ rest, (formatResults q nodes limit).data =
      ("# 🔍 Search results: '".data ++ q.data ++
        (Char.ofNat 39 :: Char.ofNat 10 :: Char.ofNat 10 :: [])) ++
      (totalPat ++ (natDigits (dedupResults nodes limit).length ++
        (docsFoundPat ++ rest))) := by
  have hie : nodes.isEmpty = false := by
    cases nodes with
    | nil => exact absurd rfl hne
    | cons _ _ => rfl
  obtain ⟨e, es, hres⟩ : ∃ e es, dedupResults nodes limit = e :: es := by
    cases hd : dedupResults nodes limit with
    | nil => exact absurd hd (dedupResults_ne_nil nodes limit hne)
    | cons e es => exact ⟨e, es, rfl⟩
  have h1 : formatResults q nodes limit =
      joinNl (("# 🔍 Search results: '" ++ q ++ "'") :: "" ::
        ("Total " ++ natStr (dedupResults nodes limit).length ++ " documents found") ::
        "" :: entryLines 1 (dedupResults nodes limit)) := by
    simp [formatResults, hie]
  refine ⟨Char.ofNat 10 :: Char.ofNat 10 ::
    (joinNl (("## " ++ natStr 1 ++ ". [" ++ e.title ++ "](" ++ e.url ++ ")") ::
      ("**Platform**: " ++ e.platform ++ " | **Date**: " ++ e.date) ::
      ("**Relevance**: " ++ e.scoreText) ::
      ("**Preview**: " ++ e.preview) :: "" :: entryLines 2 es)).data, ?_⟩
  rw [h1, hres]
  rw [show entryLines 1 (e :: es) =
      ("## " ++ natStr 1 ++ ". [" ++ e.title ++ "](" ++ e.url ++ ")") ::
      ("**Platform**: " ++ e.platform ++ " | **Date**: " ++ e.date) ::
      ("**Relevance**: " ++ e.scoreText) ::
      ("**Preview**: " ++ e.preview) :: "" :: entryLines 2 es from rfl]
  rw [joinNl_data_cons_cons, joinNl_data_cons_cons, joinNl_data_cons_cons,
    joinNl_data_cons_cons]
  rw [show ("# 🔍 Search results: '" ++ q ++ "'").data =
      "# 🔍 Search results: '".data ++ q.data ++ [Char.ofNat 39] by
    rw [String.data_append, String.data_append]]
  rw [show ("Total " ++ natStr ((e :: es).length) ++ " documents found").data =
      totalPat ++ natDigits ((e :: es).length) ++ docsFoundPat by
    rw [String.data_append, String.data_append]
    rfl]
  simp [List.append_assoc]

theorem extractCount_formatResults (q : String) (nodes : List Node) (limit : Nat)
    (hq : findCount q.data = none) :
    extractCount (formatResults q nodes limit).data = (dedupResults nodes limit).length := by
  by_cases hne : nodes = []
  · subst hne
    have hdata : (formatResults q [] limit).data =
        ("No results found for '".data ++ q.data ++ (Char.ofNat 39 :: [])) ++ [] := by
      show (("No results found for '" ++ q) ++ "'").data = _
      rw [String.data_append, String.data_append]
      simp [show ("'" : String).data = [Char.ofNat 39] by decide]
    rw [extractCount, hdata,
      findCount_wrapped _ _ [] [] (by decide) hq (by decide)]
    rfl
  · obtain ⟨rest, hdata⟩ := formatResults_data q nodes limit hne
    rw [extractCount, hdata,
      findCount_wrapped _ _ [Char.ofNat 10, Char.ofNat 10] _ (by decide) hq (by decide)]
    rw [findCount_of_matchTotalAt _ _ (matchTotalAt_canonical (natDigits _) rest
      (natDigits_spec _).1 (natDigits_spec _).2.1)]
    rw [Option.getD_some]
    exact (natDigits_spec _).2.2

/-- C10 (amended): for every query whose text does not contain a substring
matching `Total (\d+) documents found`, and every positive limit, the
count that `_extract_count` parses back out of the formatted local search
text is exactly the number of title-deduplicated results included in that
text; that number is at most the limit; and an empty node list yields
count 0.  (The two provisos are forced by the counterexample: a query
containing the pattern is echoed into the markdown header, which precedes
the genuine count line and poisons the leftmost regex match; and with
`limit = 0` the dedup loop still emits one result, because the source
checks `len(results) >= limit` only *after* appending.) -/
theorem extract_count_roundtrip (q : String) (nodes : List Node) (limit : Nat)
    (hq : findCount q.data = none) (hl : 1 ≤ limit) :
    extractCount (formatResults q nodes limit).data = (dedupResults nodes limit).length ∧
    (dedupResults nodes limit).length ≤ limit ∧
    (nodes = [] → extractCount (formatResults q nodes limit).data = 0) := by
  refine ⟨extractCount_formatResults q nodes limit hq, ?_, ?_⟩
  · have := dedupGo_length_le limit nodes [] 0 (by omega)
    rw [dedupResults]
    omega
  · intro h
    subst h
    rw [extractCount_formatResults q [] limit hq]
    rfl

set_option maxRecDepth 8000 in
theorem extract_count_roundtrip_witness :
    extractCount (formatResults "kubernetes" [nodeFix, nodeFixB, nodeFix] 10).data =
      (dedupResults [nodeFix, nodeFixB, nodeFix] 10).length ∧
    (dedupResults [nodeFix, nodeFixB, nodeFix] 10).length = 2 :=
  ⟨(extract_count_roundtrip "kubernetes" [nodeFix, nodeFixB, nodeFix] 10
      (by decide) (by decide)).1,
    by decide⟩

set_option maxRecDepth 8000 in
/-- C10 counterexample: the round trip fails as universally stated.
With the query `"Total 7 documents found"` and an empty node list, the
formatted output is `No results found for 'Total 7 documents found'`, the
regex finds the pattern inside the echoed query, and the extracted count
is 7 although zero deduplicated results are included (the claim requires
0 for an empty node list).  Moreover with `limit = 0` the deduplicated
result list has length 1 > 0, refuting "at most the limit": the source
appends first and only then checks `len(results) >= limit`. -/
theorem extract_count_roundtrip_fails :
    extractCount (formatResults "Total 7 documents found" [] 5).data = 7 ∧
    dedupResults ([] : List Node) 5 = [] ∧
    (dedupResults [nodeFix] 0).length = 1 :=
  ⟨by decide, by decide, by decide⟩

/-- C3 (amended): for every query whose text does not contain a substring
matching `Total (\d+) documents found` (so that the parsed-back local
count equals the true deduplicated local result count), the fallback
threshold behaves as specified: a deduplicated local result count of at
least `min_threshold` yields a `source = "local"` outcome with no web
search invoked, and any smaller count (including `threshold - 1`) invokes
the web search step.  (For a query containing the pattern, the orchestrator
compares against the poisoned parsed count instead, and the counterexample
shows it can skip the web search despite a shortfall.) -/
theorem fallback_threshold (minT : Nat) (q : String) (nodes : List Node) (nr : Nat)
    (webDocs : List DocumentModel) (hq : findCount q.data = none) :
    (minT ≤ (dedupResults nodes nr).length →
      (dynamicSearch minT q nodes nr false webDocs).result.source = "local" ∧
      (dynamicSearch minT q nodes nr false webDocs).webInvoked = false) ∧
    ((dedupResults nodes nr).length < minT →
      (dynamicSearch minT q nodes nr false webDocs).webInvoked = true) := by
  have hcnt : (searchLocal q nodes nr false).2 = (dedupResults nodes nr).length := by
    simp only [searchLocal, Bool.false_eq_true, if_false]
    exact extractCount_formatResults q nodes nr hq
  constructor
  · intro hge
    have h1 : minT ≤ (searchLocal q nodes nr false).2 := by omega
    constructor <;> simp [dynamicSearch, h1]
  · intro hlt
    have h1 : ¬ minT ≤ (searchLocal q nodes nr false).2 := by omega
    by_cases hw : webDocs.isEmpty <;> simp [dynamicSearch, h1, hw]

set_option maxRecDepth 8000 in
theorem fallback_threshold_witness :
    (dynamicSearch 3 "golang" [nodeFix, nodeFixB, nodeFixC] 10 false []).webInvoked =
      false ∧
    (dynamicSearch 3 "golang" [] 10 false [webDocFix]).webInvoked = true :=
  ⟨((fallback_threshold 3 "golang" [nodeFix, nodeFixB, nodeFixC] 10 []
      (by decide)).1 (by decide)).2,
    (fallback_threshold 3 "golang" [] 10 [webDocFix] (by decide)).2 (by decide)⟩

set_option maxRecDepth 8000 in
/-- C3 counterexample: with the query `"Total 5 documents found"` and an
empty local store, the deduplicated local result count is 0 — two below
the default threshold 3 — yet the orchestrator does *not* invoke the web
search step and returns a `source = "local"` outcome, because the count it
compares is parsed back out of the formatted text, and the echoed query
makes that parse return 5 ≥ 3.  This refutes the claim's "for every
query" statement that any count below the threshold invokes the web
search. -/
theorem fallback_not_invoked_despite_shortfall :
    (dedupResults ([] : List Node) 10).length = 0 ∧
    (dynamicSearch 3 "Total 5 documents found" [] 10 false [webDocFix]).webInvoked =
      false ∧
    (dynamicSearch 3 "Total 5 documents found" [] 10 false [webDocFix]).result.source =
      "local" :=
  ⟨by decide, by decide, by decide⟩

/-- C7 (amended): per-item and body failures are absorbed at the crawler
boundaries of both *search* operations (any failure of the body degrades
to an empty list) and of the Tistory harvest (every id whose fetch fails —
error, non-200, or empty content — is silently dropped, yielding a partial
result; the spec's five-id scenario returns exactly the two good posts);
the Notion harvest with no API key returns an empty list; but the Notion
harvest with a configured key *escalates* a failure of the paginated
search past its own boundary (re-raising `APIError`, wrapping anything
else in `FetchError`) instead of returning a partial result — the
isolation for that path lives one level up, in
`DocumentFetcher._fetch_notion`. -/
theorem crawler_boundary (apiKey blogName : String) (e : String) (ce : CrawlErr)
    (r : TistoryResp) (bc : String → String) (pid : Nat) :
    notionSearcherSearch apiKey (Except.error e) = [] ∧
    tistorySearcherSearch blogName (Except.error e) = [] ∧
    fetch_post blogName pid (Except.error e) = none ∧
    (r.status ≠ 200 → fetch_post blogName pid (Except.ok r) = none) ∧
    (r.content = "" → fetch_post blogName pid (Except.ok r) = none) ∧
    fetch_tistory_posts "b" tistoryScenarioNet 5 = [scenarioDoc1, scenarioDoc3] ∧
    (apiKey ≠ "" → (fetch_notion_pages apiKey (Except.error ce) bc).isOk = false) ∧
    fetch_notion_pages "" (Except.error ce) bc = Except.ok [] := by
  refine ⟨?_, ?_, rfl, ?_, ?_, by decide, ?_, rfl⟩
  · by_cases h : apiKey = "" <;> simp [notionSearcherSearch, h]
  · by_cases h : blogName = "" <;> simp [tistorySearcherSearch, h]
  · intro h
    simp [fetch_post, h]
  · intro h
    by_cases hs : r.status = 200 <;> simp [fetch_post, h, hs]
  · intro hk
    cases ce <;> simp [fetch_notion_pages, hk, Except.isOk, Except.toBool]

theorem crawler_boundary_witness :
    notionSearcherSearch "key" (Except.error "boom") = [] ∧
    fetch_post "b" 2 (Except.ok ⟨404, "", "", ""⟩) = none ∧
    (fetch_notion_pages "key" (Except.error (CrawlErr.api "Notion" 500 "x"))
      (fun _ => "")).isOk = false := by
  have h := crawler_boundary "key" "b" "boom" (CrawlErr.api "Notion" 500 "x")
    ⟨404, "", "", ""⟩ (fun _ => "") 2
  exact ⟨h.1, h.2.2.2.1 (by decide), h.2.2.2.2.2.2.1 (by decide)⟩

/-- C7 counterexample: the claim states that FetchAll never raises past the
crawler's own boundary for every source; but `fetch_notion_pages` with a
configured API key re-raises an `APIError` from the paginated search — the
operation's result is the escalated error, not a (partial or empty)
document list.  The catch that converts this failure into an empty result
sits in the Acquisition Coordinator (`DocumentFetcher._fetch_notion`), not
inside the crawler. -/
theorem notion_harvest_raises :
    fetch_notion_pages "key" (Except.error (CrawlErr.api "Notion" 500 "boom"))
      (fun _ => "") = Except.error (CrawlErr.api "Notion" 500 "boom") ∧
    (fetch_notion_pages "key" (Except.error (CrawlErr.api "Notion" 500 "boom"))
      (fun _ => "")).isOk = false :=
  ⟨rfl, rfl⟩

/-- C8: recursive block-content extraction is bounded by the configured
maximum depth (default 10): every call whose depth exceeds the bound
returns the empty string for that subtree instead of recursing further,
and on a document nested 12 levels deep (levels 0 through 11) with
`max_depth = 10`, the text of levels 0 through 10 is included while the
level-11 subtree contributes empty text.  (Exceptions cannot propagate:
the source wraps both the depth-guarded fetch and the per-block fetch in
handlers that return `""`, and the model is total.) -/
theorem depth_bound_extraction :
    (∀ (supported : List String) (blocks : List Block) (depth : Nat),
      notion_max_depth < depth →
      fetchBlockContent notion_max_depth supported blocks depth = "") ∧
    fetchBlockContent notion_max_depth ["paragraph"]
      (nestedChain ["L0", "L1", "L2", "L3", "L4", "L5", "L6", "L7", "L8", "L9",
        "L10", "L11"]) 0 = "L0 L1 L2 L3 L4 L5 L6 L7 L8 L9 L10" := by
  constructor
  · intro sup blocks depth h
    simp [fetchBlockContent, h]
  · decide

theorem depth_bound_extraction_witness :
    fetchBlockContent notion_max_depth ["paragraph"]
      [Block.node "paragraph" ["deep"] false []] 11 = "" :=
  depth_bound_extraction.1 ["paragraph"] [Block.node "paragraph" ["deep"] false []] 11
    (by decide)
